import Mathlib

/-!
Formal model of the Target Word multiplayer game server
(`src/socket/handler.js` together with `src/game/state.js`).

The server is a single-threaded event loop.  Each inbound transport event
(connect, disconnect, submit_expression, force_reset) runs a handler over
one shared mutable state.  We embed that state as `GameState` and each
handler as a pure function `GameState -> GameState × List OutEvent`,
with the outcomes of the remote Python-service calls supplied as oracle
arguments (`Option` results: `none` models a network failure or a
malformed response).

JavaScript objects used as maps (`playerSubmissions`, `_playerSockets`)
are embedded as association lists in insertion order: assignment to an
existing key replaces the value in place, assignment to a fresh key
appends, and `delete` removes the entry — exactly the enumeration-order
behaviour of JS objects with (non-index-like) string keys such as socket
ids.  Similarity scores are real numbers in the source; here they are
rationals, which preserves every comparison the code performs.

`async` handlers suspend at each `await`.  The states visible to other
events at those suspension points are modelled separately
(`startGameSuspendStates`, and `submitValidate` / `submitAfterAwaits`
splitting the submit handler at its awaits); the run-to-completion
behaviour of a whole handler is given by the `...Step` functions and the
event-sequence semantics `runEvents`.
-/

namespace TargetWord

/-- A stored submission: the submitted expression and its similarity
score.  `score` is an `Option` because `endGame` guards on
`typeof sub.score === 'number'`; the submit handler itself only ever
stores numeric scores. -/
structure Submission where
  expression : String
  score : Option ℚ
deriving DecidableEq

/-- One entry of the `game_over` results list: resolved role text, the
expression text shown, and either a numeric score or `none`, which the
source renders as the string "N/A". -/
structure ResultEntry where
  role : String
  expression : String
  score : Option ℚ
deriving DecidableEq

/-- The complete server state: the handler-local variables of
`setupSocketHandlers` (`targetWord`, `targetVector`, `playerSubmissions`,
`wordList`) together with the fields of `src/game/state.js` that this
game reads and writes (`_player1`, `_player2`, `_gameActive`,
`_playerSockets`).  The `_playerSockets` table maps a socket id to its
role string (`"Player 1"`, `"Player 2"` or `"Spectator"`). -/
structure GameState where
  targetWord : Option String
  targetVector : Option (List Int)
  playerSubmissions : List (String × Submission)
  wordList : List String
  player1 : Option String
  player2 : Option String
  gameActive : Bool
  playerSockets : List (String × String)
deriving DecidableEq

/-- Outbound transport events.  `errorAll` is `io.emit('error_message')`
(broadcast), `errorTo` is `socket.emit('error_message')` (unicast to the
named socket). -/
inductive OutEvent where
  | assignRole (toId role : String)
  | waitingForPlayer (toId : String)
  | spectatorInfo (toId status : String) (targetWord : Option String)
      (subs : Option (List (String × Submission)))
  | gameStart (targetWord : String) (players : List (String × String))
  | errorAll (msg : String)
  | errorTo (toId msg : String)
  | playerSubmitted (role expr : String)
  | playerLeft (msg : String)
  | gameOver (reason : String) (results : List ResultEntry)
      (targetWord : Option String)
  | gameReset (msg : String)
deriving DecidableEq

/-- Lookup in a JS-object-as-map: first (only) binding of the key. -/
def assocGet {α : Type} (l : List (String × α)) (k : String) : Option α :=
  match l with
  | [] => none
  | p :: rest => if p.1 = k then some p.2 else assocGet rest k

/-- JS-object assignment `o[k] = v`: replace in place if the key exists,
append otherwise (keys keep their first-insertion position). -/
def assocSet {α : Type} (l : List (String × α)) (k : String) (v : α) :
    List (String × α) :=
  match l with
  | [] => [(k, v)]
  | p :: rest => if p.1 = k then (k, v) :: rest else p :: assocSet rest k v

/-- JS `delete o[k]`. -/
def assocDel {α : Type} (l : List (String × α)) (k : String) :
    List (String × α) :=
  l.filter (fun p => p.1 != k)

/-- `Object.values(players).filter(p => p.role !== 'Spectator').length`:
the number of participants currently holding a slot role. -/
def countSlots (l : List (String × String)) : Nat :=
  (l.filter (fun p => p.2 != "Spectator")).length

/-- The slot-holders in insertion order, as `(id, role)` pairs — the
`playerInfo` list that `startGame` broadcasts. -/
def slotPlayers (l : List (String × String)) : List (String × String) :=
  l.filter (fun p => p.2 != "Spectator")

/-- Outcomes of the remote calls a `startGame` run may perform.
`fetchResult` is consumed only if the word list is empty at entry;
`randIndex` stands for `Math.floor(Math.random() * wordList.length)`
(taken modulo the list length); `embedResult` is the `/get-embedding`
response (`none`: network error or missing `vector` field). -/
structure StartOracle where
  fetchResult : Option (List String)
  randIndex : Nat
  embedResult : Option (List Int)
deriving DecidableEq

/-- The word list `fetchWordList` leaves behind: the fetched words when
the response holds a non-empty array, `[]` on failure, a malformed
response, or an empty array. -/
def fetchedWords (fetchResult : Option (List String)) : List String :=
  match fetchResult with
  | some ws => if ws.isEmpty then [] else ws
  | none => []

/-- The `fetchWordList` helper: overwrites `wordList` with the fetch
outcome and touches nothing else. -/
def fetchWordList (fetchResult : Option (List String)) (s : GameState) :
    GameState :=
  { s with wordList := fetchedWords fetchResult }

/-- `wordList[Math.floor(Math.random() * wordList.length)]`. -/
def pickWord (ws : List String) (r : Nat) : String :=
  ws.getD (r % ws.length) ""

/-- Result of a completed `startGame` run: final state, emitted events,
and how many times `fetchWordList` was invoked during the run. -/
structure StartResult where
  state : GameState
  events : List OutEvent
  fetchAttempts : Nat
deriving DecidableEq

/-- The `startGame` helper, run to completion.  It first sets the active
flag and clears the submissions, refreshes the word list once if it is
empty, aborts (flag back to false, broadcast error) if it is still
empty, otherwise picks a target word and asks the Python service for its
embedding; on embedding failure it clears both targets and the flag. -/
def startGame (s : GameState) (o : StartOracle) : StartResult :=
  let s1 : GameState := { s with gameActive := true, playerSubmissions := [] }
  let attempts : Nat := if s1.wordList.isEmpty then 1 else 0
  let s2 : GameState :=
    if s1.wordList.isEmpty then fetchWordList o.fetchResult s1 else s1
  if s2.wordList.isEmpty then
    { state := { s2 with gameActive := false },
      events := [.errorAll "Server error: Could not load word list to start game."],
      fetchAttempts := attempts }
  else
    let w := pickWord s2.wordList o.randIndex
    let s3 : GameState := { s2 with targetWord := some w }
    match o.embedResult with
    | some v =>
        { state := { s3 with targetVector := some v },
          events := [.gameStart w (slotPlayers s3.playerSockets)],
          fetchAttempts := attempts }
    | none =>
        { state := { s3 with targetWord := none, targetVector := none,
                             gameActive := false },
          events := [.errorAll "Server error starting game: could not get embedding for target word."],
          fetchAttempts := attempts }

/-- The states other events can observe while a `startGame` run is
suspended at one of its `await`s: at the `fetchWordList` await (only
taken when the word list was empty) and at the `/get-embedding` await
(only reached when a word is available). -/
def startGameSuspendStates (s : GameState) (o : StartOracle) :
    List GameState :=
  let s1 : GameState := { s with gameActive := true, playerSubmissions := [] }
  let fetchSuspend : List GameState := if s1.wordList.isEmpty then [s1] else []
  let s2 : GameState :=
    if s1.wordList.isEmpty then fetchWordList o.fetchResult s1 else s1
  if s2.wordList.isEmpty then fetchSuspend
  else
    fetchSuspend ++
      [{ s2 with targetWord := some (pickWord s2.wordList o.randIndex) }]

/-- One entry of the `game_over` results list, as `endGame` builds it
for a stored submission: role resolved through the socket table with the
`Player (<first 4 chars of id>)` fallback; submissions whose score is
not a number are shown with the `"(No submission)"` sentinel (only when
the stored expression is falsy, i.e. empty) and score of `none`
(rendered "N/A"). -/
def endGameEntry (socks : List (String × String)) (p : String × Submission) :
    ResultEntry :=
  let role := (assocGet socks p.1).getD ("Player (" ++ p.1.take 4 ++ ")")
  match p.2.score with
  | some sc => { role := role, expression := p.2.expression, score := some sc }
  | none =>
      { role := role,
        expression := if p.2.expression = "" then "(No submission)"
                      else p.2.expression,
        score := none }

/-- One iteration of `endGame`'s winner loop: a submission with a
numeric score replaces the running best exactly when its score is
strictly greater (`sub.score > bestScore`, with `bestScore` starting at
`-Infinity`, modelled by `none`). -/
def winnerStep (acc : Option ℚ × Option String) (p : String × Submission) :
    Option ℚ × Option String :=
  match p.2.score with
  | some sc =>
      match acc.1 with
      | none => (some sc, some p.1)
      | some b => if b < sc then (some sc, some p.1) else acc
  | none => acc

/-- The winner computation of `endGame`: best score and winner id after
folding the stored submissions in insertion order. -/
def winnerFold (subs : List (String × Submission)) : Option ℚ × Option String :=
  subs.foldl winnerStep (none, none)

/-- The `game_over` reason string: the winning role plus " wins!" when a
winner id was found and is still in the socket table, otherwise the
tie/no-valid-scores message. -/
def endGameReason (subs : List (String × Submission))
    (socks : List (String × String)) : String :=
  match (winnerFold subs).2 with
  | some w =>
      match assocGet socks w with
      | some role => role ++ " wins!"
      | none => "A tie or no valid scores!"
  | none => "A tie or no valid scores!"

/-- The `endGame` helper.  Returns immediately when no round is active.
Otherwise it clears the active flag; with no target vector it emits an
error-flavoured `game_over` and stops (leaving word and submissions in
place); otherwise it emits `game_over` with one results entry per stored
submission, the winner in the reason, and the target word, then clears
target word, target vector and submissions. -/
def endGame (s : GameState) : GameState × List OutEvent :=
  if s.gameActive then
    let s1 : GameState := { s with gameActive := false }
    match s.targetVector with
    | none =>
        (s1, [.gameOver "Error determining winner: Missing target vector." [] none])
    | some _ =>
        ({ s1 with targetWord := none, targetVector := none,
                   playerSubmissions := [] },
         [.gameOver (endGameReason s.playerSubmissions s.playerSockets)
            (s.playerSubmissions.map (endGameEntry s.playerSockets))
            s.targetWord])
  else (s, [])

/-- Role assignment of the connection handler: Player 1 if fewer than
`MAX_PLAYERS` slot-holders are seated and slot 1 is free, else Player 2
under the same count bound, else Spectator.  (The id of the connecting
socket plays no part in the choice.) -/
def connectAssignedRole (s : GameState) : String :=
  if countSlots s.playerSockets < 2 ∧ s.player1 = none then "Player 1"
  else if countSlots s.playerSockets < 2 ∧ s.player2 = none then "Player 2"
  else "Spectator"

/-- Seat the connecting socket: record the slot id for a slot role and
add (or overwrite) the socket-table entry. -/
def connectSeat (s : GameState) (id : String) : GameState :=
  let role := connectAssignedRole s
  { s with
    player1 := if role = "Player 1" then some id else s.player1,
    player2 := if role = "Player 2" then some id else s.player2,
    playerSockets := assocSet s.playerSockets id role }

/-- The connection handler, run to completion: assign and announce the
role, then either start a game (two slot-holders seated and no active
round — `startGame` runs with oracle `o`), tell a lone slot-holder to
wait, or send a spectator its status. -/
def connectStep (s : GameState) (id : String) (o : StartOracle) :
    GameState × List OutEvent :=
  let role := connectAssignedRole s
  let s1 := connectSeat s id
  let ev0 : OutEvent := .assignRole id role
  if countSlots s1.playerSockets = 2 ∧ s1.gameActive = false then
    let r := startGame s1 o
    (r.state, ev0 :: r.events)
  else if countSlots s1.playerSockets < 2 ∧ role ≠ "Spectator" then
    (s1, [ev0, .waitingForPlayer id])
  else if role = "Spectator" then
    if s1.gameActive then
      (s1, [ev0, .spectatorInfo id "Game in progress." s1.targetWord
              (some s1.playerSubmissions)])
    else
      (s1, [ev0, .spectatorInfo id "Waiting for players..." none none])
  else (s1, [ev0])

/-- The disconnect handler: free the vacated slot, drop the socket-table
entry, and — when a slot-holder leaves during an active round —
broadcast `player_left` and run `endGame` on the cleaned-up state. -/
def disconnectStep (s : GameState) (id : String) : GameState × List OutEvent :=
  match assocGet s.playerSockets id with
  | none => (s, [])
  | some role =>
      let s1 : GameState :=
        { s with
          player1 := if role = "Player 1" then none else s.player1,
          player2 := if role = "Player 2" then none else s.player2,
          playerSockets := assocDel s.playerSockets id }
      if role ≠ "Spectator" ∧ s.gameActive then
        let r := endGame s1
        (r.1, .playerLeft (role ++ " disconnected. Game over.") :: r.2)
      else (s1, [])

/-- The `force_reset` handler: `state.resetState()` plus the handler's
own clearing of target word, target vector and submissions.  The word
list is a handler-local variable that `resetState` does not touch. -/
def resetStep (s : GameState) (byId : String) : GameState × List OutEvent :=
  ({ s with targetWord := none, targetVector := none,
            playerSubmissions := [], player1 := none, player2 := none,
            gameActive := false, playerSockets := [] },
   [.gameReset ("Game manually reset by " ++ byId ++ ". Waiting for players...")])

/-- The check `!expression || expression.trim().length === 0` of the
submit handler (a payload that is not a string is outside this model):
true exactly when the expression is empty or whitespace-only. -/
def isBlank (expr : String) : Bool :=
  expr.data.all (fun c => c.isWhitespace)

/-- The validation chain at the top of the submit handler, in source
order: active round, sender known and not a spectator, no stored
submission for the sender, non-blank expression, target vector present.
Returns the targeted error message of the first failing check. -/
def submitValidate (s : GameState) (id expr : String) : Option String :=
  if s.gameActive = false then some "Game is not active."
  else
    match assocGet s.playerSockets id with
    | none => some "Spectators cannot submit."
    | some role =>
        if role = "Spectator" then some "Spectators cannot submit."
        else if (assocGet s.playerSubmissions id).isSome then
          some "You have already submitted for this round."
        else if isBlank expr then some "Invalid expression submitted."
        else if s.targetVector.isNone then
          some "Cannot submit: Target word not set correctly."
        else none

/-- The commit segment of the submit handler (everything after the two
remote calls succeeded): store the submission under the sender's id,
broadcast `player_submitted` with the role captured at handler entry,
and invoke `endGame` exactly when the number of stored submissions now
equals the number of seated slot-holders.  The returned flag records
whether `endGame` was invoked. -/
def submitCommit (s : GameState) (id expr roleStr : String) (sc : ℚ) :
    GameState × List OutEvent × Bool :=
  let s1 : GameState :=
    { s with playerSubmissions :=
        assocSet s.playerSubmissions id ⟨expr, some sc⟩ }
  let ev : OutEvent := .playerSubmitted roleStr expr
  if s1.playerSubmissions.length = countSlots s1.playerSockets then
    let r := endGame s1
    (r.1, ev :: r.2, true)
  else (s1, [ev], false)

/-- The continuation of the submit handler after its validations: the
`/calculate-vector` call, then the `/compare-to-target` call, then the
commit segment.  A failure of either remote call sends a targeted error
and changes nothing.  `s` is the state in which the continuation runs —
under interleaving it need not be the state that was validated. -/
def submitAfterAwaits (s : GameState) (id expr roleStr : String)
    (calcV : Option (List Int)) (cmp : Option ℚ) :
    GameState × List OutEvent × Bool :=
  match calcV with
  | none => (s, [.errorTo id "Server error calculating your expression."], false)
  | some _ =>
      match cmp with
      | none => (s, [.errorTo id "Server error comparing your result."], false)
      | some sc => submitCommit s id expr roleStr sc

/-- The submit handler, run to completion in one state: validate, then
run the remote calls and the commit segment in the same state. -/
def submitStep (s : GameState) (id expr : String)
    (calcV : Option (List Int)) (cmp : Option ℚ) :
    GameState × List OutEvent × Bool :=
  match submitValidate s id expr with
  | some msg => (s, [.errorTo id msg], false)
  | none =>
      let roleStr := (assocGet s.playerSockets id).getD ""
      submitAfterAwaits s id expr roleStr calcV cmp

/-- An inbound event together with the oracle outcomes of any remote
calls its handler may perform. -/
inductive GEvent where
  | connect (id : String) (o : StartOracle)
  | disconnect (id : String)
  | submit (id expr : String) (calcV : Option (List Int)) (cmp : Option ℚ)
  | reset (byId : String)
deriving DecidableEq

/-- Run-to-completion semantics of one inbound event. -/
def step (s : GameState) (e : GEvent) : GameState × List OutEvent :=
  match e with
  | .connect id o => connectStep s id o
  | .disconnect id => disconnectStep s id
  | .submit id expr calcV cmp =>
      let r := submitStep s id expr calcV cmp
      (r.1, r.2.1)
  | .reset byId => resetStep s byId

/-- The state after `setupSocketHandlers` initialises: everything empty
and inactive; `ws` is whatever the initial word-list fetch left. -/
def initState (ws : List String) : GameState :=
  { targetWord := none, targetVector := none, playerSubmissions := [],
    wordList := ws, player1 := none, player2 := none, gameActive := false,
    playerSockets := [] }

/-- The state reached by processing a sequence of inbound events, each
run to completion. -/
def runEvents (ws : List String) (evs : List GEvent) : GameState :=
  evs.foldl (fun s e => (step s e).1) (initState ws)

/-- The round data-model invariant: the active flag implies both targets
are set. -/
def ActiveImpliesTargets (s : GameState) : Prop :=
  s.gameActive = true → s.targetWord.isSome ∧ s.targetVector.isSome

/-- Specification of the winner rule, from the spec text: `w` with score
`sc` is the first arg-max of the stored submissions — some entry at
position `i` carries `w` with numeric score `sc`, no stored numeric
score exceeds `sc`, and every entry before position `i` scores strictly
below `sc`. -/
def IsFirstArgmax (subs : List (String × Submission)) (w : String) (sc : ℚ) :
    Prop :=
  ∃ i : Nat, ∃ sub : Submission,
    subs.get? i = some (w, sub) ∧ sub.score = some sc ∧
    (∀ p ∈ subs, ∀ q : ℚ, p.2.score = some q → q ≤ sc) ∧
    (∀ p ∈ subs.take i, ∀ q : ℚ, p.2.score = some q → q < sc)

/-! ## Concrete states used by witnesses and counterexamples -/

/-- Socket table with the two demo players seated. -/
def demoSockets : List (String × String) :=
  [("aaaa", "Player 1"), ("bbbb", "Player 2")]

/-- A mid-round state: both players seated, round active, target word
"ocean" with its vector, no submissions yet. -/
def demoActive : GameState :=
  { targetWord := some "ocean", targetVector := some [1, 2],
    playerSubmissions := [], wordList := ["ocean"],
    player1 := some "aaaa", player2 := some "bbbb",
    gameActive := true, playerSockets := demoSockets }

/-- Both players seated, no round active (the instant before a round
start is triggered), word list already populated. -/
def demoSeated : GameState :=
  { targetWord := none, targetVector := none,
    playerSubmissions := [], wordList := ["ocean"],
    player1 := some "aaaa", player2 := some "bbbb",
    gameActive := false, playerSockets := demoSockets }

/-- Both players seated and a round active whose target word was chosen
but whose vector fetch is still in flight — the state at `startGame`'s
`/get-embedding` await. -/
def c1Mid : GameState :=
  { demoSeated with gameActive := true, targetWord := some "ocean" }

/-- Two connection events that seat both demo players and start a round
(word list already populated, embedding fetch succeeds). -/
def demoEvents : List GEvent :=
  [.connect "aaaa" ⟨none, 0, some [1, 2]⟩, .connect "bbbb" ⟨none, 0, some [1, 2]⟩]

/-! ## Helper lemmas -/

/-- `endGame` always leaves the active flag false: if the round was
active it clears the flag, and if it was not the state is returned
unchanged (with the flag already false). -/
theorem endGame_fst_gameActive (s : GameState) :
    ((endGame s).1).gameActive = false := by
  cases hb : s.gameActive with
  | false => simp [endGame, hb]
  | true => cases hv : s.targetVector <;> simp [endGame, hb, hv]

/-- Unpacking a passed validation: the round is active, the sender holds
a non-spectator role, has no stored submission, sent a non-blank
expression, and the target vector is present. -/
theorem submitValidate_none (s : GameState) (id expr : String)
    (h : submitValidate s id expr = none) :
    s.gameActive = true ∧
    (∃ role, assocGet s.playerSockets id = some role ∧ role ≠ "Spectator") ∧
    assocGet s.playerSubmissions id = none ∧
    isBlank expr = false ∧ s.targetVector.isSome := by
  unfold submitValidate at h
  by_cases h1 : s.gameActive = false
  · simp [h1] at h
  · cases hr : assocGet s.playerSockets id with
    | none => simp [h1, hr] at h
    | some role =>
      rw [hr] at h
      by_cases h2 : role = "Spectator"
      · simp [h1, h2] at h
      · by_cases h3 : (assocGet s.playerSubmissions id).isSome
        · simp [h1, h2, h3] at h
        · by_cases h4 : isBlank expr
          · simp [h1, h2, h3, h4] at h
          · by_cases h5 : s.targetVector.isNone
            · simp [h1, h2, h3, h4, h5] at h
            · refine ⟨by simpa using h1, ⟨role, by simp [hr], h2⟩, ?_, ?_, ?_⟩
              · cases hg : assocGet s.playerSubmissions id with
                | none => rfl
                | some _ => rw [hg] at h3; simp at h3
              · simpa using h4
              · cases hv : s.targetVector with
                | none => rw [hv] at h5; simp at h5
                | some _ => simp

/-! ## Claim C10 -/

/-- C10: `endGame` is a no-op whenever the round's active flag is false —
it returns the state unchanged (target word, target vector, submissions
and role table untouched) and emits no event; and since `endGame` always
leaves the flag false, a second consecutive `endGame` call changes
nothing, so finalization cannot fire twice for the same round. -/
theorem c10_endGame_inactive_noop :
    (∀ s : GameState, s.gameActive = false → endGame s = (s, [])) ∧
    (∀ s : GameState, endGame (endGame s).1 = ((endGame s).1, [])) := by
  have h1 : ∀ s : GameState, s.gameActive = false → endGame s = (s, []) := by
    intro s h
    simp [endGame, h]
  exact ⟨h1, fun s => h1 _ (endGame_fst_gameActive s)⟩

/-- C10 witness: the inactive demo state is returned unchanged with no
events. -/
theorem c10_endGame_inactive_noop_witness :
    endGame demoSeated = (demoSeated, []) :=
  c10_endGame_inactive_noop.1 demoSeated rfl

/-! ## Claim C8 -/

/-- C8: when the word list is empty at round start, exactly one
fetch-refresh is attempted; if the fetched list is empty as well, the
start aborts back to idle: the active flag ends false, one failure
notification is broadcast to all connections, the target word and
target vector fields are exactly what they were before, and both slot
assignments and the whole role table are left unchanged. -/
theorem c8_empty_wordlist_abort (s : GameState) (o : StartOracle)
    (hempty : s.wordList = []) :
    (startGame s o).fetchAttempts = 1 ∧
    (fetchedWords o.fetchResult = [] →
      (startGame s o).state.gameActive = false ∧
      (startGame s o).state.targetWord = s.targetWord ∧
      (startGame s o).state.targetVector = s.targetVector ∧
      (startGame s o).state.player1 = s.player1 ∧
      (startGame s o).state.player2 = s.player2 ∧
      (startGame s o).state.playerSockets = s.playerSockets ∧
      (startGame s o).events =
        [.errorAll "Server error: Could not load word list to start game."]) := by
  constructor
  · cases hfr : o.fetchResult with
    | none => simp [startGame, fetchWordList, fetchedWords, hempty, hfr]
    | some ws =>
      by_cases hws : ws.isEmpty
      · simp [startGame, fetchWordList, fetchedWords, hempty, hfr, hws]
      · cases he : o.embedResult <;>
          simp [startGame, fetchWordList, fetchedWords, hempty, hfr, hws, he]
  · intro hf
    simp [startGame, fetchWordList, hempty, hf]

/-- C8 witness: starting from the fresh empty-word-list state with a
failing fetch, one fetch is attempted, the abort notification is
broadcast, and the round is not active. -/
theorem c8_empty_wordlist_abort_witness :
    (startGame (initState []) ⟨none, 0, none⟩).fetchAttempts = 1 ∧
    (startGame (initState []) ⟨none, 0, none⟩).state.gameActive = false ∧
    (startGame (initState []) ⟨none, 0, none⟩).events =
      [.errorAll "Server error: Could not load word list to start game."] :=
  ⟨(c8_empty_wordlist_abort (initState []) ⟨none, 0, none⟩ rfl).1,
   ((c8_empty_wordlist_abort (initState []) ⟨none, 0, none⟩ rfl).2 rfl).1,
   ((c8_empty_wordlist_abort (initState []) ⟨none, 0, none⟩ rfl).2 rfl).2.2.2.2.2.2⟩

/-! ## Claim C7 -/

/-- C7: on a validated submit, a submission is stored only if both
remote calls succeed.  If the vector computation or the comparison
fails, the state is completely unchanged, exactly one targeted error is
sent to the submitter, and the submitter still has no stored submission
— so a resubmission faces the same state and is not blocked by the
duplicate gate. -/
theorem c7_remote_failure_no_commit (s : GameState) (id expr : String)
    (calcV : Option (List Int)) (cmp : Option ℚ)
    (hval : submitValidate s id expr = none)
    (hfail : calcV = none ∨ cmp = none) :
    (submitStep s id expr calcV cmp).1 = s ∧
    (∃ msg, (submitStep s id expr calcV cmp).2.1 = [.errorTo id msg]) ∧
    assocGet (submitStep s id expr calcV cmp).1.playerSubmissions id = none := by
  have hsub := (submitValidate_none s id expr hval).2.2.1
  cases hfail with
  | inl hc =>
    subst hc
    exact ⟨by simp [submitStep, hval, submitAfterAwaits],
      ⟨"Server error calculating your expression.",
        by simp [submitStep, hval, submitAfterAwaits]⟩,
      by simp [submitStep, hval, submitAfterAwaits, hsub]⟩
  | inr hc =>
    subst hc
    cases calcV with
    | none =>
      exact ⟨by simp [submitStep, hval, submitAfterAwaits],
        ⟨"Server error calculating your expression.",
          by simp [submitStep, hval, submitAfterAwaits]⟩,
        by simp [submitStep, hval, submitAfterAwaits, hsub]⟩
    | some v =>
      exact ⟨by simp [submitStep, hval, submitAfterAwaits],
        ⟨"Server error comparing your result.",
          by simp [submitStep, hval, submitAfterAwaits]⟩,
        by simp [submitStep, hval, submitAfterAwaits, hsub]⟩

/-- C7 witness: in the demo round, a failing comparison call leaves the
state untouched, sends one targeted error, and stores nothing. -/
theorem c7_remote_failure_no_commit_witness :
    (submitStep demoActive "aaaa" "sea" (some [1]) none).1 = demoActive ∧
    (∃ msg, (submitStep demoActive "aaaa" "sea" (some [1]) none).2.1 =
      [.errorTo "aaaa" msg]) ∧
    assocGet (submitStep demoActive "aaaa" "sea" (some [1]) none).1.playerSubmissions
      "aaaa" = none :=
  c7_remote_failure_no_commit demoActive "aaaa" "sea" (some [1]) none rfl
    (Or.inr rfl)

/-! ## Claim C2 -/

/-- C2 (amended): a submit event whose sender already has a stored
submission when the handler begins is rejected by the validation chain —
the state is returned unchanged (in particular the stored submission is
untouched) and exactly one targeted error is sent to that sender. -/
theorem c2_duplicate_submit_rejected (s : GameState) (id expr : String)
    (calcV : Option (List Int)) (cmp : Option ℚ)
    (hdup : (assocGet s.playerSubmissions id).isSome = true) :
    (submitStep s id expr calcV cmp).1 = s ∧
    ∃ msg, (submitStep s id expr calcV cmp).2.1 = [.errorTo id msg] := by
  have hfail : ∃ m, submitValidate s id expr = some m := by
    unfold submitValidate
    by_cases h1 : s.gameActive = false
    · exact ⟨"Game is not active.", by simp [h1]⟩
    · cases hr : assocGet s.playerSockets id with
      | none => exact ⟨"Spectators cannot submit.", by simp [h1]⟩
      | some role =>
        by_cases h2 : role = "Spectator"
        · exact ⟨"Spectators cannot submit.", by simp [h1, h2]⟩
        · exact ⟨"You have already submitted for this round.",
            by simp [h1, h2, hdup]⟩
  obtain ⟨m, hm⟩ := hfail
  exact ⟨by simp [submitStep, hm], m, by simp [submitStep, hm]⟩

/-- C2 witness: with "aaaa"'s submission already stored, a second
submit from "aaaa" leaves the state unchanged and yields one targeted
error. -/
theorem c2_duplicate_submit_rejected_witness :
    (submitStep
        { demoActive with playerSubmissions := [("aaaa", ⟨"sea", some 1⟩)] }
        "aaaa" "sky" (some [1]) (some 3)).1 =
      { demoActive with playerSubmissions := [("aaaa", ⟨"sea", some 1⟩)] } ∧
    ∃ msg,
      (submitStep
        { demoActive with playerSubmissions := [("aaaa", ⟨"sea", some 1⟩)] }
        "aaaa" "sky" (some [1]) (some 3)).2.1 = [.errorTo "aaaa" msg] :=
  c2_duplicate_submit_rejected
    { demoActive with playerSubmissions := [("aaaa", ⟨"sea", some 1⟩)] }
    "aaaa" "sky" (some [1]) (some 3) rfl

/-- C2 counterexample: the claim "at most one submission is ever stored
under an id; the old submission is never overwritten" fails under the
interleaving the event loop permits.  Both submits from "aaaa" pass the
validation chain in the same state `demoActive` (the second is validated
while the first's remote calls are still in flight, so no submission is
stored yet and the duplicate gate does not fire); the first continuation
then commits ("sea", 1), and the second continuation commits
("sky", 3) over it — the stored submission is overwritten with no
targeted error ever sent to the sender. -/
theorem c2_overlapping_submits_overwrite :
    submitValidate demoActive "aaaa" "sea" = none ∧
    submitValidate demoActive "aaaa" "sky" = none ∧
    (submitAfterAwaits demoActive "aaaa" "sea" "Player 1"
        (some [1]) (some 1)).1.playerSubmissions =
      [("aaaa", ⟨"sea", some 1⟩)] ∧
    (submitAfterAwaits
        (submitAfterAwaits demoActive "aaaa" "sea" "Player 1"
          (some [1]) (some 1)).1
        "aaaa" "sky" "Player 1" (some [1]) (some 3)).1.playerSubmissions =
      [("aaaa", ⟨"sky", some 3⟩)] := by
  refine ⟨by decide, by decide, by decide, by decide⟩

/-! ## Claim C9 -/

/-- C9: the submit handler performs no re-validation after its remote
calls — the post-await continuation commits unconditionally.  Concrete
run: "aaaa" passes validation in the active demo round; while the remote
calls are in flight a force_reset wipes the whole state; the resumed
continuation still commits the stale submission into the reset state,
whose round is inactive and whose role table no longer contains the
sender.  This contradicts the claimed re-checks of round-active,
duplicate-submission and slot-holder status before the write. -/
theorem c9_stale_commit_applied :
    submitValidate demoActive "aaaa" "sea" = none ∧
    (submitAfterAwaits (resetStep demoActive "bbbb").1 "aaaa" "sea" "Player 1"
        (some [1]) (some 1)).1.playerSubmissions =
      [("aaaa", ⟨"sea", some 1⟩)] ∧
    (submitAfterAwaits (resetStep demoActive "bbbb").1 "aaaa" "sea" "Player 1"
        (some [1]) (some 1)).1.gameActive = false ∧
    assocGet (submitAfterAwaits (resetStep demoActive "bbbb").1 "aaaa" "sea"
        "Player 1" (some [1]) (some 1)).1.playerSockets "aaaa" = none := by
  refine ⟨by decide, by decide, by decide, by decide⟩

/-! ## Claim C1 (counterexample part) -/

/-- C1 counterexample: "at every observable point, active implies both
targets set" is false.  When `startGame` is triggered from the seated
demo state it sets the active flag, picks the target word, and suspends
at the `/get-embedding` await; the state at that suspension point — the
state every event processed during the await observes — has the active
flag true and the target vector still null.  A submit handler run in
that very state gets past the `isGameActive` check (observing an active
round) and is stopped only by the last-resort target-vector check. -/
theorem c1_active_without_vector_observable :
    startGameSuspendStates demoSeated ⟨none, 0, some [1, 2]⟩ = [c1Mid] ∧
    c1Mid.gameActive = true ∧ c1Mid.targetVector = none ∧
    submitValidate c1Mid "aaaa" "sea" =
      some "Cannot submit: Target word not set correctly." := by
  refine ⟨by decide, by decide, by decide, by decide⟩

/-! ## Claim C1 (amended invariant) -/

/-- A completed `startGame` run always satisfies the invariant: the
success path sets both targets, and every abort path clears the active
flag. -/
theorem startGame_state_inv (s : GameState) (o : StartOracle) :
    ActiveImpliesTargets (startGame s o).state := by
  unfold ActiveImpliesTargets
  by_cases hw : s.wordList.isEmpty = true
  · cases hfr : o.fetchResult with
    | none =>
      intro h
      simp [startGame, fetchWordList, fetchedWords, hw, hfr] at h
    | some ws =>
      by_cases hws : ws.isEmpty = true
      · intro h
        simp [startGame, fetchWordList, fetchedWords, hw, hfr, hws] at h
      · cases he : o.embedResult with
        | some v =>
          intro _
          simp [startGame, fetchWordList, fetchedWords, hw, hfr, hws, he]
        | none =>
          intro h
          simp [startGame, fetchWordList, fetchedWords, hw, hfr, hws, he] at h
  · cases he : o.embedResult with
    | some v =>
      intro _
      simp [startGame, hw, he]
    | none =>
      intro h
      simp [startGame, hw, he] at h

/-- The state `endGame` returns always satisfies the invariant, because
its active flag is always false. -/
theorem endGame_fst_inv (s : GameState) : ActiveImpliesTargets (endGame s).1 := by
  intro ha
  rw [endGame_fst_gameActive] at ha
  cases ha

/-- The commit segment of the submit handler preserves the invariant:
it only touches the submissions, and the optional `endGame` it triggers
leaves the flag false. -/
theorem submitCommit_fst_inv (s : GameState) (id expr roleStr : String) (sc : ℚ)
    (h : ActiveImpliesTargets s) :
    ActiveImpliesTargets (submitCommit s id expr roleStr sc).1 := by
  dsimp only [submitCommit]
  split
  · exact endGame_fst_inv _
  · exact h

/-- Every inbound event, run to completion, preserves the invariant. -/
theorem step_fst_inv (s : GameState) (e : GEvent)
    (h : ActiveImpliesTargets s) : ActiveImpliesTargets (step s e).1 := by
  cases e with
  | connect id o =>
    dsimp only [step, connectStep]
    split
    · exact startGame_state_inv _ o
    · split
      · exact h
      · split
        · split
          · exact h
          · exact h
        · exact h
  | disconnect id =>
    dsimp only [step, disconnectStep]
    split
    · exact h
    · split
      · exact endGame_fst_inv _
      · exact h
  | submit id expr calcV cmp =>
    dsimp only [step, submitStep, submitAfterAwaits]
    split
    · exact h
    · split
      · exact h
      · split
        · exact h
        · exact submitCommit_fst_inv _ _ _ _ _ h
  | reset byId =>
    dsimp only [step, resetStep]
    intro ha
    simp at ha

/-- C1 (amended): at every handler-completion point — every state
reachable by a sequence of inbound events each run to completion — the
round's active flag is true only if the target word and the target
vector are both non-null; in particular no completed `startGame` run
leaves the flag set with either target null.  (The counterexample
theorem shows the claim's stronger "every observable point" reading is
false at `startGame`'s internal suspension points.) -/
theorem c1_invariant_at_completion (ws : List String) (evs : List GEvent) :
    ActiveImpliesTargets (runEvents ws evs) := by
  unfold runEvents
  have H : ∀ (l : List GEvent) (s : GameState), ActiveImpliesTargets s →
      ActiveImpliesTargets (l.foldl (fun s e => (step s e).1) s) := by
    intro l
    induction l with
    | nil => exact fun s hs => hs
    | cons e t ih => exact fun s hs => ih _ (step_fst_inv s e hs)
  refine H evs (initState ws) ?_
  intro ha
  simp [initState] at ha

/-- C1 witness: after the two demo connects complete, the round is
active and both targets are indeed set. -/
theorem c1_invariant_at_completion_witness :
    (runEvents ["ocean"] demoEvents).targetWord.isSome ∧
    (runEvents ["ocean"] demoEvents).targetVector.isSome :=
  c1_invariant_at_completion ["ocean"] demoEvents (by decide)

/-! ## Claim C3 -/

/-- Unfolding `countSlots` over a cons cell. -/
theorem countSlots_cons (p : String × String) (t : List (String × String)) :
    countSlots (p :: t) = (if p.2 = "Spectator" then 0 else 1) + countSlots t := by
  by_cases h : p.2 = "Spectator"
  · simp [countSlots, List.filter_cons, h]
  · simp [countSlots, List.filter_cons, h]
    omega

/-- Storing one socket-table entry raises the slot count by at most
one. -/
theorem countSlots_assocSet_le (l : List (String × String)) (k v : String) :
    countSlots (assocSet l k v) ≤ countSlots l + 1 := by
  induction l with
  | nil =>
    simp only [assocSet, countSlots_cons]
    split_ifs <;> simp [countSlots]
  | cons p t ih =>
    simp only [assocSet]
    by_cases h : p.1 = k
    · rw [if_pos h, countSlots_cons, countSlots_cons]
      split_ifs <;> omega
    · rw [if_neg h, countSlots_cons, countSlots_cons]
      omega

/-- Storing a spectator entry never raises the slot count. -/
theorem countSlots_assocSet_spectator_le (l : List (String × String)) (k : String) :
    countSlots (assocSet l k "Spectator") ≤ countSlots l := by
  induction l with
  | nil => simp [assocSet, countSlots_cons, countSlots]
  | cons p t ih =>
    simp only [assocSet]
    by_cases h : p.1 = k
    · rw [if_pos h]
      simp [countSlots_cons]
    · rw [if_neg h, countSlots_cons, countSlots_cons]
      omega

/-- Deleting a socket-table entry never raises the slot count. -/
theorem countSlots_assocDel_le (l : List (String × String)) (k : String) :
    countSlots (assocDel l k) ≤ countSlots l := by
  induction l with
  | nil => simp [assocDel, countSlots]
  | cons p t ih =>
    unfold assocDel at ih ⊢
    rw [List.filter_cons]
    by_cases h : (p.1 != k) = true
    · rw [if_pos h, countSlots_cons, countSlots_cons]
      omega
    · rw [if_neg h, countSlots_cons]
      omega

/-- `startGame` never touches the socket table. -/
theorem startGame_state_playerSockets (s : GameState) (o : StartOracle) :
    (startGame s o).state.playerSockets = s.playerSockets := by
  by_cases hw : s.wordList.isEmpty = true
  · cases hfr : o.fetchResult with
    | none => simp [startGame, fetchWordList, fetchedWords, hw, hfr]
    | some ws =>
      by_cases hws : ws.isEmpty = true
      · simp [startGame, fetchWordList, fetchedWords, hw, hfr, hws]
      · cases he : o.embedResult <;>
          simp [startGame, fetchWordList, fetchedWords, hw, hfr, hws, he]
  · cases he : o.embedResult <;> simp [startGame, hw, he]

/-- `endGame` never touches the socket table. -/
theorem endGame_fst_playerSockets (s : GameState) :
    ((endGame s).1).playerSockets = s.playerSockets := by
  cases hb : s.gameActive with
  | false => simp [endGame, hb]
  | true => cases hv : s.targetVector <;> simp [endGame, hb, hv]

/-- The commit segment never touches the socket table. -/
theorem submitCommit_fst_playerSockets (s : GameState) (id expr roleStr : String)
    (sc : ℚ) :
    (submitCommit s id expr roleStr sc).1.playerSockets = s.playerSockets := by
  dsimp only [submitCommit]
  split
  · rw [endGame_fst_playerSockets]
  · rfl

/-- The whole submit handler never touches the socket table. -/
theorem submitStep_fst_playerSockets (s : GameState) (id expr : String)
    (calcV : Option (List Int)) (cmp : Option ℚ) :
    (submitStep s id expr calcV cmp).1.playerSockets = s.playerSockets := by
  dsimp only [submitStep, submitAfterAwaits]
  split
  · rfl
  · split
    · rfl
    · split
      · rfl
      · exact submitCommit_fst_playerSockets _ _ _ _ _

/-- Every inbound event preserves the two-slot bound. -/
theorem step_countSlots_le (s : GameState) (e : GEvent)
    (h : countSlots s.playerSockets ≤ 2) :
    countSlots ((step s e).1).playerSockets ≤ 2 := by
  cases e with
  | connect id o =>
    have hset : countSlots ((connectSeat s id).playerSockets) ≤ 2 := by
      dsimp only [connectSeat]
      by_cases hrole : connectAssignedRole s = "Spectator"
      · calc countSlots (assocSet s.playerSockets id (connectAssignedRole s))
            = countSlots (assocSet s.playerSockets id "Spectator") := by rw [hrole]
          _ ≤ countSlots s.playerSockets := countSlots_assocSet_spectator_le _ _
          _ ≤ 2 := h
      · have hlt : countSlots s.playerSockets < 2 := by
          unfold connectAssignedRole at hrole
          by_cases h1 : countSlots s.playerSockets < 2 ∧ s.player1 = none
          · exact h1.1
          · by_cases h2 : countSlots s.playerSockets < 2 ∧ s.player2 = none
            · exact h2.1
            · exact absurd (by simp [h1, h2]) hrole
        have := countSlots_assocSet_le s.playerSockets id (connectAssignedRole s)
        omega
    dsimp only [step, connectStep]
    split
    · rw [startGame_state_playerSockets]
      exact hset
    · split
      · exact hset
      · split
        · split
          · exact hset
          · exact hset
        · exact hset
  | disconnect id =>
    dsimp only [step, disconnectStep]
    split
    · exact h
    · split
      · rw [endGame_fst_playerSockets]
        exact le_trans (countSlots_assocDel_le _ _) h
      · exact le_trans (countSlots_assocDel_le _ _) h
  | submit id expr calcV cmp =>
    dsimp only [step]
    rw [submitStep_fst_playerSockets]
    exact h
  | reset byId =>
    dsimp only [step, resetStep]
    simp [countSlots]

/-- C3: over every sequence of inbound events, at most two participants
hold a slot role simultaneously; and whenever the two slots are filled
(`countSlots = 2`), the role the connection handler assigns to any
further connecting participant is Spectator. -/
theorem c3_slot_bound (ws : List String) (evs : List GEvent) :
    countSlots (runEvents ws evs).playerSockets ≤ 2 ∧
    (countSlots (runEvents ws evs).playerSockets = 2 →
      connectAssignedRole (runEvents ws evs) = "Spectator") := by
  constructor
  · unfold runEvents
    have H : ∀ (l : List GEvent) (s : GameState), countSlots s.playerSockets ≤ 2 →
        countSlots ((l.foldl (fun s e => (step s e).1) s)).playerSockets ≤ 2 := by
      intro l
      induction l with
      | nil => exact fun s hs => hs
      | cons e t ih => exact fun s hs => ih _ (step_countSlots_le s e hs)
    exact H evs (initState ws) (by simp [initState, countSlots])
  · intro h2
    unfold connectAssignedRole
    rw [h2]
    simp

/-- C3 witness: once the two demo players are seated, the next
connection would be assigned Spectator. -/
theorem c3_slot_bound_witness :
    connectAssignedRole (runEvents ["ocean"] demoEvents) = "Spectator" :=
  (c3_slot_bound ["ocean"] demoEvents).2 (by decide)

/-! ## Claim C4 -/

/-- Assigning a fresh key grows the map by exactly one entry. -/
theorem assocSet_length_of_not_mem {α : Type} (l : List (String × α)) (k : String)
    (v : α) (h : assocGet l k = none) :
    (assocSet l k v).length = l.length + 1 := by
  induction l with
  | nil => rfl
  | cons p t ih =>
    by_cases hk : p.1 = k
    · unfold assocGet at h
      rw [if_pos hk] at h
      cases h
    · unfold assocGet at h
      rw [if_neg hk] at h
      simp only [assocSet]
      rw [if_neg hk]
      simp [ih h]

/-- Reading back a just-assigned key. -/
theorem assocGet_assocSet_self {α : Type} (l : List (String × α)) (k : String)
    (v : α) : assocGet (assocSet l k v) k = some v := by
  induction l with
  | nil => simp [assocSet, assocGet]
  | cons p t ih =>
    by_cases hk : p.1 = k
    · simp [assocSet, hk, assocGet]
    · simp [assocSet, hk, assocGet, ih]

/-- When the round is active, `endGame` emits exactly one `game_over`
broadcast. -/
theorem endGame_snd_gameOver (s : GameState) (h : s.gameActive = true) :
    ∃ reason results tw, (endGame s).2 = [.gameOver reason results tw] := by
  cases hv : s.targetVector with
  | none =>
    exact ⟨"Error determining winner: Missing target vector.", [], none,
      by simp [endGame, h, hv]⟩
  | some v =>
    exact ⟨endGameReason s.playerSubmissions s.playerSockets,
      s.playerSubmissions.map (endGameEntry s.playerSockets), s.targetWord,
      by simp [endGame, h, hv]⟩

/-- C4: on a validated submit whose remote calls succeed, the submit
path invokes `endGame` exactly when the number of stored submissions
(after storing this one) equals the number of seated slot-holders —
equivalently, `game_over` is broadcast from the submit path exactly in
that case — and when the count is still below the slot count the round
stays active with the submission stored and no finalization. -/
theorem c4_submit_finalize_iff (s : GameState) (id expr : String) (v : List Int)
    (q : ℚ) (hval : submitValidate s id expr = none) :
    ((submitStep s id expr (some v) (some q)).2.2 = true ↔
      s.playerSubmissions.length + 1 = countSlots s.playerSockets) ∧
    ((∃ reason results tw,
        OutEvent.gameOver reason results tw ∈
          (submitStep s id expr (some v) (some q)).2.1) ↔
      (submitStep s id expr (some v) (some q)).2.2 = true) ∧
    (s.playerSubmissions.length + 1 < countSlots s.playerSockets →
      (submitStep s id expr (some v) (some q)).1.gameActive = true ∧
      assocGet (submitStep s id expr (some v) (some q)).1.playerSubmissions id =
        some ⟨expr, some q⟩ ∧
      (submitStep s id expr (some v) (some q)).2.2 = false) := by
  obtain ⟨hact, -, hsub, -, -⟩ := submitValidate_none s id expr hval
  have hlen : (assocSet s.playerSubmissions id ⟨expr, some q⟩).length =
      s.playerSubmissions.length + 1 := assocSet_length_of_not_mem _ _ _ hsub
  have hred : submitStep s id expr (some v) (some q) =
      submitCommit s id expr ((assocGet s.playerSockets id).getD "") q := by
    simp only [submitStep, hval, submitAfterAwaits]
  by_cases hc : s.playerSubmissions.length + 1 = countSlots s.playerSockets
  · have hC : (assocSet s.playerSubmissions id ⟨expr, some q⟩).length =
        countSlots s.playerSockets := by rw [hlen]; exact hc
    obtain ⟨re, rs, tw, hev⟩ :=
      endGame_snd_gameOver
        { s with playerSubmissions := assocSet s.playerSubmissions id ⟨expr, some q⟩ }
        hact
    refine ⟨?_, ?_, ?_⟩
    · simp only [hred, submitCommit, if_pos hC]
      simp [hc]
    · simp only [hred, submitCommit, if_pos hC]
      refine ⟨fun _ => by trivial, fun _ => ⟨re, rs, tw, ?_⟩⟩
      rw [hev]
      simp
    · intro hlt
      omega
  · have hC : ¬((assocSet s.playerSubmissions id ⟨expr, some q⟩).length =
        countSlots s.playerSockets) := by rw [hlen]; exact hc
    refine ⟨?_, ?_, ?_⟩
    · simp only [hred, submitCommit, if_neg hC]
      simp [hc]
    · simp only [hred, submitCommit, if_neg hC]
      simp
    · intro hlt
      simp only [hred, submitCommit, if_neg hC]
      exact ⟨hact, assocGet_assocSet_self _ _ _, by trivial⟩

/-- C4 witness: with "bbbb"'s submission already stored in the
two-player demo round, "aaaa"'s successful submit makes the counts
equal and finalization fires. -/
theorem c4_submit_finalize_iff_witness :
    (submitStep { demoActive with
        playerSubmissions := [("bbbb", ⟨"rock", some 22⟩)] }
      "aaaa" "sea" (some [1]) (some 81)).2.2 = true :=
  (c4_submit_finalize_iff
    { demoActive with playerSubmissions := [("bbbb", ⟨"rock", some 22⟩)] }
    "aaaa" "sea" [1] 81 (by decide)).1.mpr (by decide)

/-! ## Claim C6 -/

/-- Prepending an entry whose numeric score (if any) is strictly below
the winning score keeps the first-arg-max property, shifting the winning
position by one. -/
theorem IsFirstArgmax.cons (p : String × Submission)
    {t : List (String × Submission)} {w : String} {sc : ℚ}
    (hhead : ∀ q : ℚ, p.2.score = some q → q < sc)
    (h : IsFirstArgmax t w sc) : IsFirstArgmax (p :: t) w sc := by
  obtain ⟨i, sub, hget, hsub, hall, hpre⟩ := h
  refine ⟨i + 1, sub, by simpa using hget, hsub, ?_, ?_⟩
  · intro pp hpp q hq
    rcases List.mem_cons.mp hpp with rfl | hmem
    · exact le_of_lt (hhead q hq)
    · exact hall pp hmem q hq
  · intro pp hpp q hq
    rw [List.take_succ_cons] at hpp
    rcases List.mem_cons.mp hpp with rfl | hmem
    · exact hhead q hq
    · exact hpre pp hmem q hq

/-- A head entry whose score dominates every later numeric score is the
first arg-max. -/
theorem isFirstArgmax_head (p : String × Submission)
    (t : List (String × Submission)) (sc : ℚ)
    (hscore : p.2.score = some sc)
    (hall : ∀ pp ∈ t, ∀ q : ℚ, pp.2.score = some q → q ≤ sc) :
    IsFirstArgmax (p :: t) p.1 sc := by
  refine ⟨0, p.2, by simp, hscore, ?_, by simp⟩
  intro pp hpp q hq
  rcases List.mem_cons.mp hpp with rfl | hmem
  · rw [hscore] at hq
    exact le_of_eq (Option.some.inj hq).symm
  · exact hall pp hmem q hq

/-- Running `endGame`'s winner loop from an accumulator `(b, w0)` either
keeps the accumulator (when no later numeric score strictly exceeds `b`)
or yields the first later entry that strictly improves on `b` and on
every entry before it. -/
theorem winnerFoldAux_some (subs : List (String × Submission)) :
    ∀ (b : ℚ) (w0 : String) (sc : ℚ) (w : String),
    List.foldl winnerStep (some b, some w0) subs = (some sc, some w) →
    ((w = w0 ∧ sc = b ∧ ∀ p ∈ subs, ∀ q : ℚ, p.2.score = some q → q ≤ b) ∨
     (b < sc ∧ ∃ i : Nat, ∃ sub : Submission,
        subs.get? i = some (w, sub) ∧ sub.score = some sc ∧
        (∀ p ∈ subs, ∀ q : ℚ, p.2.score = some q → q ≤ sc) ∧
        (∀ p ∈ subs.take i, ∀ q : ℚ, p.2.score = some q → q < sc))) := by
  induction subs with
  | nil =>
    intro b w0 sc w h
    rw [List.foldl_nil] at h
    injection h with h1 h2
    left
    refine ⟨(Option.some.inj h2).symm, (Option.some.inj h1).symm, ?_⟩
    intro p hp
    simp at hp
  | cons p t ih =>
    intro b w0 sc w h
    rw [List.foldl_cons] at h
    cases hscore : p.2.score with
    | none =>
      rw [show winnerStep (some b, some w0) p = (some b, some w0) from
        by simp [winnerStep, hscore]] at h
      rcases ih b w0 sc w h with ⟨hw, hsc, hall⟩ | ⟨hlt, i, sub, hget, hsub, hall, hpre⟩
      · left
        refine ⟨hw, hsc, ?_⟩
        intro pp hpp q hq
        rcases List.mem_cons.mp hpp with rfl | hmem
        · rw [hscore] at hq
          cases hq
        · exact hall pp hmem q hq
      · right
        refine ⟨hlt, i + 1, sub, by simpa using hget, hsub, ?_, ?_⟩
        · intro pp hpp q hq
          rcases List.mem_cons.mp hpp with rfl | hmem
          · rw [hscore] at hq
            cases hq
          · exact hall pp hmem q hq
        · intro pp hpp q hq
          rw [List.take_succ_cons] at hpp
          rcases List.mem_cons.mp hpp with rfl | hmem
          · rw [hscore] at hq
            cases hq
          · exact hpre pp hmem q hq
    | some q0 =>
      by_cases hbq : b < q0
      · rw [show winnerStep (some b, some w0) p = (some q0, some p.1) from
          by simp [winnerStep, hscore, hbq]] at h
        rcases ih q0 p.1 sc w h with ⟨hw, hsc, hall⟩ | ⟨hlt, i, sub, hget, hsub, hall, hpre⟩
        · right
          subst hw
          subst hsc
          refine ⟨hbq, 0, p.2, by simp, hscore, ?_, ?_⟩
          · intro pp hpp q hq
            rcases List.mem_cons.mp hpp with rfl | hmem
            · rw [hscore] at hq
              exact le_of_eq (Option.some.inj hq).symm
            · exact hall pp hmem q hq
          · intro pp hpp q hq
            simp at hpp
        · right
          refine ⟨lt_trans hbq hlt, i + 1, sub, by simpa using hget, hsub, ?_, ?_⟩
          · intro pp hpp q hq
            rcases List.mem_cons.mp hpp with rfl | hmem
            · rw [hscore] at hq
              rw [← Option.some.inj hq]
              exact le_of_lt hlt
            · exact hall pp hmem q hq
          · intro pp hpp q hq
            rw [List.take_succ_cons] at hpp
            rcases List.mem_cons.mp hpp with rfl | hmem
            · rw [hscore] at hq
              rw [← Option.some.inj hq]
              exact hlt
            · exact hpre pp hmem q hq
      · rw [show winnerStep (some b, some w0) p = (some b, some w0) from
          by simp [winnerStep, hscore, hbq]] at h
        rcases ih b w0 sc w h with ⟨hw, hsc, hall⟩ | ⟨hlt, i, sub, hget, hsub, hall, hpre⟩
        · left
          refine ⟨hw, hsc, ?_⟩
          intro pp hpp q hq
          rcases List.mem_cons.mp hpp with rfl | hmem
          · rw [hscore] at hq
            rw [← Option.some.inj hq]
            exact not_lt.mp hbq
          · exact hall pp hmem q hq
        · right
          refine ⟨hlt, i + 1, sub, by simpa using hget, hsub, ?_, ?_⟩
          · intro pp hpp q hq
            rcases List.mem_cons.mp hpp with rfl | hmem
            · rw [hscore] at hq
              rw [← Option.some.inj hq]
              exact le_of_lt (lt_of_le_of_lt (not_lt.mp hbq) hlt)
            · exact hall pp hmem q hq
          · intro pp hpp q hq
            rw [List.take_succ_cons] at hpp
            rcases List.mem_cons.mp hpp with rfl | hmem
            · rw [hscore] at hq
              rw [← Option.some.inj hq]
              exact lt_of_le_of_lt (not_lt.mp hbq) hlt
            · exact hpre pp hmem q hq

/-- The winner `endGame`'s loop computes is the first arg-max of the
stored submissions: its score is maximal and every earlier entry scores
strictly below it. -/
theorem winnerFold_spec (subs : List (String × Submission)) :
    ∀ (sc : ℚ) (w : String), winnerFold subs = (some sc, some w) →
    IsFirstArgmax subs w sc := by
  induction subs with
  | nil =>
    intro sc w h
    simp [winnerFold] at h
  | cons p t ih =>
    intro sc w h
    unfold winnerFold at h
    rw [List.foldl_cons] at h
    cases hscore : p.2.score with
    | none =>
      rw [show winnerStep (none, none) p = (none, none) from
        by simp [winnerStep, hscore]] at h
      refine IsFirstArgmax.cons p ?_ (ih sc w h)
      intro q hq
      rw [hscore] at hq
      cases hq
    | some q0 =>
      rw [show winnerStep (none, none) p = (some q0, some p.1) from
        by simp [winnerStep, hscore]] at h
      rcases winnerFoldAux_some t q0 p.1 sc w h with ⟨hw, hsc, hall⟩ |
        ⟨hlt, i, sub, hget, hsub, hall, hpre⟩
      · rw [hw, hsc]
        exact isFirstArgmax_head p t q0 hscore hall
      · refine IsFirstArgmax.cons p ?_ ⟨i, sub, hget, hsub, hall, hpre⟩
        intro q hq
        rw [hscore] at hq
        rw [← Option.some.inj hq]
        exact hlt

/-- C6: on an active round with a target vector, `endGame` clears the
target word, the target vector and all submissions, broadcasts a single
`game_over` carrying one results entry per stored submission and the
target word, and the winner its loop selects is the arg-max of the
stored submissions by score, ties resolved in favour of the entry
earliest in insertion order. -/
theorem c6_endGame_argmax_and_clear (s : GameState) (v : List Int)
    (hact : s.gameActive = true) (hv : s.targetVector = some v) :
    (endGame s).1.targetWord = none ∧
    (endGame s).1.targetVector = none ∧
    (endGame s).1.playerSubmissions = [] ∧
    (endGame s).2 =
      [.gameOver (endGameReason s.playerSubmissions s.playerSockets)
        (s.playerSubmissions.map (endGameEntry s.playerSockets)) s.targetWord] ∧
    (∀ sc w, winnerFold s.playerSubmissions = (some sc, some w) →
      IsFirstArgmax s.playerSubmissions w sc) := by
  refine ⟨?_, ?_, ?_, ?_, fun sc w h => winnerFold_spec _ sc w h⟩ <;>
    simp [endGame, hact, hv]

/-- C6 witness: in the spec's own scenario ("sea" scoring 81 hundredths,
"rock" scoring 22) plus a tie pair, the loop picks the first top scorer
and `endGame` clears the round: instantiated at a concrete state whose
submissions are "aaaa"/"sea"/81 then "bbbb"/"rock"/22, the theorem's
conclusions all evaluate. -/
theorem c6_endGame_argmax_and_clear_witness :
    (endGame { demoActive with
        playerSubmissions :=
          [("aaaa", ⟨"sea", some 81⟩), ("bbbb", ⟨"rock", some 22⟩)] }).1.targetWord
      = none ∧
    (endGame { demoActive with
        playerSubmissions :=
          [("aaaa", ⟨"sea", some 81⟩), ("bbbb", ⟨"rock", some 22⟩)] }).2 =
      [.gameOver "Player 1 wins!"
        [⟨"Player 1", "sea", some 81⟩, ⟨"Player 2", "rock", some 22⟩]
        (some "ocean")] ∧
    IsFirstArgmax [("aaaa", ⟨"sea", some 81⟩), ("bbbb", ⟨"rock", some 22⟩)]
      "aaaa" 81 := by
  have h := c6_endGame_argmax_and_clear
    { demoActive with
        playerSubmissions :=
          [("aaaa", ⟨"sea", some 81⟩), ("bbbb", ⟨"rock", some 22⟩)] }
    [1, 2] rfl rfl
  refine ⟨h.1, ?_, h.2.2.2.2 81 "aaaa" (by decide)⟩
  rw [h.2.2.2.1]
  decide

/-! ## Claim C5 -/

/-- The demo round mid-play: "aaaa" (Player 1) has submitted "sea",
"bbbb" (Player 2) has not submitted yet. -/
def c5State : GameState :=
  { demoActive with playerSubmissions := [("aaaa", ⟨"sea", some 81⟩)] }

/-- Deleting a key removes it from the map. -/
theorem assocGet_assocDel_self {α : Type} (l : List (String × α)) (k : String) :
    assocGet (assocDel l k) k = none := by
  induction l with
  | nil => rfl
  | cons p t ih =>
    unfold assocDel at ih ⊢
    rw [List.filter_cons]
    by_cases h : (p.1 != k) = true
    · rw [if_pos h]
      unfold assocGet
      rw [if_neg (by simpa using h)]
      exact ih
    · rw [if_neg h]
      exact ih

/-- C5 counterexample: when Player 2 disconnects before submitting, the
`game_over` results list contains only Player 1's stored submission —
there is no entry at all for slot-holder Player 2, no "(No submission)"
sentinel and no "N/A" score, contradicting the claim that the results
list contains an entry for every slot-holder of the round. -/
theorem c5_nonsubmitter_has_no_results_entry :
    assocGet c5State.playerSockets "bbbb" = some "Player 2" ∧
    c5State.gameActive = true ∧
    (disconnectStep c5State "bbbb").2 =
      [.playerLeft "Player 2 disconnected. Game over.",
       .gameOver "Player 1 wins!" [⟨"Player 1", "sea", some 81⟩]
         (some "ocean")] ∧
    (([(⟨"Player 1", "sea", some 81⟩ : ResultEntry)].all
        (fun e => e.role != "Player 2" && e.expression != "(No submission)"))
      = true) := by
  refine ⟨by decide, by decide, by decide, by decide⟩

/-- C5 (amended): when a slot-holder disconnects during an active round
with a target vector, the round-over broadcast fires immediately after
the player-left notice, and its results list contains exactly one entry
per stored submission (mapped in insertion order over the submissions of
the round) — slot-holders who never submitted are omitted entirely, and
are thereby excluded from winner consideration; the round ends inactive,
the submissions are cleared, and the vacated slot's table entry is
gone. -/
theorem c5_disconnect_results_are_submissions (s : GameState) (id role : String)
    (v : List Int)
    (hrole : assocGet s.playerSockets id = some role)
    (hspec : role ≠ "Spectator")
    (hact : s.gameActive = true)
    (hv : s.targetVector = some v) :
    (disconnectStep s id).2 =
      [.playerLeft (role ++ " disconnected. Game over."),
       .gameOver (endGameReason s.playerSubmissions (assocDel s.playerSockets id))
         (s.playerSubmissions.map (endGameEntry (assocDel s.playerSockets id)))
         s.targetWord] ∧
    (disconnectStep s id).1.gameActive = false ∧
    (disconnectStep s id).1.playerSubmissions = [] ∧
    assocGet (disconnectStep s id).1.playerSockets id = none := by
  have hstep : disconnectStep s id =
      ((endGame { s with
          player1 := if role = "Player 1" then none else s.player1,
          player2 := if role = "Player 2" then none else s.player2,
          playerSockets := assocDel s.playerSockets id }).1,
       .playerLeft (role ++ " disconnected. Game over.") ::
        (endGame { s with
          player1 := if role = "Player 1" then none else s.player1,
          player2 := if role = "Player 2" then none else s.player2,
          playerSockets := assocDel s.playerSockets id }).2) := by
    simp [disconnectStep, hrole, hspec, hact]
  rw [hstep]
  refine ⟨?_, ?_, ?_, ?_⟩
  · simp [endGame, hact, hv]
  · exact endGame_fst_gameActive _
  · simp [endGame, hact, hv]
  · rw [endGame_fst_playerSockets]
    exact assocGet_assocDel_self _ _

/-- C5 witness: the amended statement instantiated at the demo round in
which only Player 1 submitted. -/
theorem c5_disconnect_results_are_submissions_witness :
    (disconnectStep c5State "bbbb").2 =
      [.playerLeft ("Player 2" ++ " disconnected. Game over."),
       .gameOver
         (endGameReason c5State.playerSubmissions
           (assocDel c5State.playerSockets "bbbb"))
         (c5State.playerSubmissions.map
           (endGameEntry (assocDel c5State.playerSockets "bbbb")))
         c5State.targetWord] ∧
    (disconnectStep c5State "bbbb").1.gameActive = false ∧
    (disconnectStep c5State "bbbb").1.playerSubmissions = [] ∧
    assocGet (disconnectStep c5State "bbbb").1.playerSockets "bbbb" = none :=
  c5_disconnect_results_are_submissions c5State "bbbb" "Player 2" [1, 2]
    (by decide) (by decide) rfl rfl

end TargetWord
